import Mathlib

/-!
Shallow embedding of the simulated trading bot in `Bot.py`.

Modelling conventions:
* Python floats are modelled as exact rationals (`ℚ`); the claims under
  study are about control flow and exact arithmetic formulas, not binary
  floating-point representation.
* A pandas `NaN` cell is modelled as `Option.none`; a Python comparison
  with `NaN` is `False`, modelled by the helpers `oLE` / `oGE`.
* `random.uniform a b` is modelled as `uniform a b r` where `r : ℚ` is the
  underlying draw of `random.random()` with `0 ≤ r ≤ 1`.
* `datetime.utcnow()` timestamps are modelled by the current tick counter
  (the claims never constrain the timestamp values themselves).
* `round(x, n)` is modelled as rounding `x * 10^n` to the nearest integer
  (exact decimal ties do not arise in the concrete runs considered and are
  immaterial to the claims).
-/

/-- Configuration read from the environment in `Bot.py` lines 17-23. -/
structure Config where
  RSI_WINDOW : ℕ
  MA_SHORT : ℕ
  MA_LONG : ℕ
  TRADE_AMOUNT : ℚ
  START_BALANCE : ℚ
deriving DecidableEq

/-- Trade direction: `"call"` (long) or `"put"` (short) in `Bot.py`. -/
inductive Dir where
  | call : Dir
  | put : Dir
deriving DecidableEq

/-- The `open_position` dict of `Bot.py` lines 95-100. -/
structure Position where
  entry_time : ℕ
  entry_price : ℚ
  direction : Dir
  amount : ℚ
deriving DecidableEq

/-- The closed-trade record appended to `trade_history`, `Bot.py` lines 142-151. -/
structure ClosedTrade where
  entry_time : ℕ
  close_time : ℕ
  entry_price : ℚ
  close_price : ℚ
  direction : Dir
  amount : ℚ
  profit_amount : ℚ
  pnl_pips : ℚ
deriving DecidableEq

/-- The ledger part of the global mutable state of `Bot.py` lines 26-28. -/
structure BotState where
  balance : ℚ
  open_position : Option Position
  trade_history : List ClosedTrade
deriving DecidableEq

/-- One row of the indicator dataframe built by `compute_indicators`:
the closing price and the (possibly `NaN`) `rsi`, `ma_short`, `ma_long` cells. -/
structure Snapshot where
  close : ℚ
  rsi : Option ℚ
  ma_short : Option ℚ
  ma_long : Option ℚ
deriving DecidableEq

/-- Round a rational to `n` decimal places, Python `round(x, n)`. -/
def roundTo (n : ℕ) (x : ℚ) : ℚ :=
  ((Rat.floor (x * (10 : ℚ) ^ n + 1 / 2) : ℤ) : ℚ) / (10 : ℚ) ^ n

/-- Python `random.uniform a b` as a function of the underlying draw
`r = random.random() ∈ [0, 1)`: `a + (b - a) * r`. -/
def uniform (a b r : ℚ) : ℚ := a + (b - a) * r

/-- `generate_next_price` of `Bot.py` lines 55-66, with the random draw `r`
made an explicit argument. -/
def generate_next_price (price_series : List ℚ) (r : ℚ) : ℚ :=
  let base : ℚ := 1.1
  let price : ℚ :=
    if price_series.isEmpty then
      base + uniform (-0.005) 0.005 r
    else
      (price_series.getLast?.getD 0) * (1 + uniform (-0.0008) 0.0008 r)
  roundTo 5 price

/-- Successive differences `close.diff(1)` (dropping the leading `NaN`):
`diffs [p0, p1, p2] = [p1 - p0, p2 - p1]`. -/
def diffs (ps : List ℚ) : List ℚ :=
  List.zipWith (fun a b => a - b) ps.tail ps

/-- `up_direction`: positive moves, `max d 0` for each difference. -/
def gains (ps : List ℚ) : List ℚ :=
  (diffs ps).map (fun d => max d 0)

/-- `down_direction`: negative moves, `max (-d) 0` for each difference. -/
def losses (ps : List ℚ) : List ℚ :=
  (diffs ps).map (fun d => max (-d) 0)

/-- Wilder smoothing: `ewm(alpha = 1/w, adjust=False).mean()` of a series,
seeded at its first element; value at the final position. -/
def wilderAvg (w : ℕ) : List ℚ → ℚ
  | [] => 0
  | x :: rest => rest.foldl (fun acc y => (((w : ℚ) - 1) * acc + y) / (w : ℚ)) x

/-- The `rsi` cell of the last row of a price prefix: `ta.momentum.RSIIndicator`
with `min_periods = window` is `NaN` until `window` differences exist, and is
set to `100` when the smoothed loss average is zero (`np.where(emadn == 0, 100, ...)`). -/
def rsi_at (w : ℕ) (ps : List ℚ) : Option ℚ :=
  if 1 ≤ w ∧ w + 1 ≤ ps.length then
    let avg_gain := wilderAvg w (gains ps)
    let avg_loss := wilderAvg w (losses ps)
    some (if avg_loss = 0 then 100 else 100 - 100 / (1 + avg_gain / avg_loss))
  else none

/-- The rolling-mean cell `close.rolling(window=w).mean()` of the last row of a
price prefix: `NaN` until `w` prices exist, else the mean of the last `w`. -/
def sma_at (w : ℕ) (ps : List ℚ) : Option ℚ :=
  if 1 ≤ w ∧ w ≤ ps.length then
    some ((ps.drop (ps.length - w)).sum / (w : ℚ))
  else none

/-- Row `i` of the dataframe built by `compute_indicators`: each indicator cell
of row `i` depends only on the prefix `ps.take (i+1)` of the price series. -/
def rowAt (cfg : Config) (ps : List ℚ) (i : ℕ) : Snapshot :=
  { close := ps.getD i 0
    rsi := rsi_at cfg.RSI_WINDOW (ps.take (i + 1))
    ma_short := sma_at cfg.MA_SHORT (ps.take (i + 1))
    ma_long := sma_at cfg.MA_LONG (ps.take (i + 1)) }

/-- `compute_indicators` of `Bot.py` lines 68-75: `None` while the history is
shorter than `max(RSI_WINDOW, MA_LONG) + 1`, else the full indicator dataframe. -/
def compute_indicators (cfg : Config) (ps : List ℚ) : Option (List Snapshot) :=
  if ps.length < max cfg.RSI_WINDOW cfg.MA_LONG + 1 then none
  else some ((List.range ps.length).map (rowAt cfg ps))

/-- Python `x <= y` on possibly-`NaN` cells: `False` unless both are present. -/
def oLE (a b : Option ℚ) : Bool :=
  match a, b with
  | some x, some y => decide (x ≤ y)
  | _, _ => false

/-- Python `x >= y` on possibly-`NaN` cells: `False` unless both are present. -/
def oGE (a b : Option ℚ) : Bool :=
  match a, b with
  | some x, some y => decide (y ≤ x)
  | _, _ => false

/-- Pip-scaled P/L of `Bot.py` lines 120-123: price difference times 10000,
signed by the trade direction. -/
def pnl_pips (direction : Dir) (entry_price current_price : ℚ) : ℚ :=
  match direction with
  | Dir.call => (current_price - entry_price) * 10000
  | Dir.put => (entry_price - current_price) * 10000

/-- The demo currency conversion of `Bot.py` line 140:
`(pnl / 10) * (amount / 100)`. -/
def profit_amount_of (pnl amount : ℚ) : ℚ := (pnl / 10) * (amount / 100)

/-- `try_take_signal` of `Bot.py` lines 77-154, as a pure state transformer.
`now` is the current tick counter standing in for `datetime.utcnow()`;
`df.getLast?` is `df.iloc[-1]` and `df.dropLast.getLast?` is
`df.iloc[-2] if len(df) >= 2 else None`. -/
def try_take_signal (cfg : Config) (now : ℕ) (df : List Snapshot) (s : BotState) :
    BotState :=
  match df.getLast? with
  | none => s
  | some last =>
    let prev : Option Snapshot := df.dropLast.getLast?
    match last.rsi, last.ma_short, last.ma_long with
    | some rsi, some ma_s, some ma_l =>
      let prev_ma_s : Option ℚ := prev.bind Snapshot.ma_short
      let prev_ma_l : Option ℚ := prev.bind Snapshot.ma_long
      let buy_signal : Bool :=
        decide (rsi < 30) && prev.isSome && oLE prev_ma_s prev_ma_l &&
          decide (ma_l < ma_s)
      let sell_signal : Bool :=
        decide (70 < rsi) && prev.isSome && oGE prev_ma_s prev_ma_l &&
          decide (ma_s < ma_l)
      let current_price := last.close
      match s.open_position with
      | none =>
        if buy_signal then
          { s with
            open_position := some
              { entry_time := now
                entry_price := current_price
                direction := Dir.call
                amount := cfg.TRADE_AMOUNT }
            balance := s.balance - cfg.TRADE_AMOUNT }
        else if sell_signal then
          { s with
            open_position := some
              { entry_time := now
                entry_price := current_price
                direction := Dir.put
                amount := cfg.TRADE_AMOUNT }
            balance := s.balance - cfg.TRADE_AMOUNT }
        else s
      | some entry =>
        let pnl := pnl_pips entry.direction entry.entry_price current_price
        let take_profit : ℚ := 5
        let stop_loss : ℚ := -10
        let ma_reverse : Bool :=
          prev.isSome &&
            ((decide (entry.direction = Dir.call) && oGE prev_ma_s prev_ma_l &&
                decide (ma_s < ma_l)) ||
             (decide (entry.direction = Dir.put) && oLE prev_ma_s prev_ma_l &&
                decide (ma_l < ma_s)))
        if decide (take_profit ≤ pnl) || decide (pnl ≤ stop_loss) || ma_reverse then
          let profit := pnl
          let profit_amount := profit_amount_of profit entry.amount
          { balance := s.balance + entry.amount + profit_amount
            open_position := none
            trade_history := s.trade_history ++
              [{ entry_time := entry.entry_time
                 close_time := now
                 entry_price := entry.entry_price
                 close_price := current_price
                 direction := entry.direction
                 amount := entry.amount
                 profit_amount := roundTo 6 profit_amount
                 pnl_pips := roundTo 3 pnl }] }
        else s
    | _, _, _ => s

/-- The full mutable state driven by `simulation_loop`. -/
structure SimState where
  balance : ℚ
  open_position : Option Position
  trade_history : List ClosedTrade
  price_series : List ℚ
  tick : ℕ
deriving DecidableEq

/-- The ledger part of a `SimState`. -/
def SimState.bot (s : SimState) : BotState :=
  { balance := s.balance
    open_position := s.open_position
    trade_history := s.trade_history }

/-- One iteration of `simulation_loop`, `Bot.py` lines 161-171 (logging and
sleeping dropped): generate a price with draw `r`, append it, evict the oldest
point past 500, recompute indicators and run the signal logic. -/
def simStep (cfg : Config) (s : SimState) (r : ℚ) : SimState :=
  let tick := s.tick + 1
  let price := generate_next_price s.price_series r
  let appended := s.price_series ++ [price]
  let ps := if 500 < appended.length then appended.tail else appended
  match compute_indicators cfg ps with
  | none =>
    { s with price_series := ps, tick := tick }
  | some df =>
    let b := try_take_signal cfg tick df s.bot
    { balance := b.balance
      open_position := b.open_position
      trade_history := b.trade_history
      price_series := ps
      tick := tick }

/-- The initial global state of `Bot.py` lines 26-30. -/
def initState (cfg : Config) : SimState :=
  { balance := cfg.START_BALANCE
    open_position := none
    trade_history := []
    price_series := []
    tick := 0 }

/-- Run the simulation loop over a list of random draws. -/
def runSim (cfg : Config) (rs : List ℚ) : SimState :=
  rs.foldl (simStep cfg) (initState cfg)

/-- The exact amount credited back to the balance when a recorded trade was
closed: `amount + (pnl / 10) * (amount / 100)`, with the pip P/L recomputed
from the exactly-recorded entry and close prices. -/
def tradeCredit (t : ClosedTrade) : ℚ :=
  t.amount + profit_amount_of (pnl_pips t.direction t.entry_price t.close_price) t.amount

/-- The conserved ledger quantity: balance plus the stake debits of every open
so far (one per recorded trade plus one per currently open position), minus the
credits of every close so far. `try_take_signal` preserves it. -/
def ledgerMeasure (cfg : Config) (b : BotState) : ℚ :=
  b.balance +
    ((b.trade_history.length : ℚ) +
      (if b.open_position.isSome then 1 else 0)) * cfg.TRADE_AMOUNT -
    (b.trade_history.map tradeCredit).sum

set_option maxRecDepth 1000000

/-! ### Helper lemmas -/

lemma getLast?_concat_two {α : Type} (front : List α) (a b : α) :
    (front ++ [a, b]).getLast? = some b := by
  rw [show front ++ [a, b] = (front ++ [a]) ++ [b] by simp]
  exact List.getLast?_concat _

lemma dropLast_concat_two {α : Type} (front : List α) (a b : α) :
    (front ++ [a, b]).dropLast = front ++ [a] := by
  rw [show front ++ [a, b] = (front ++ [a]) ++ [b] by simp]
  exact List.dropLast_concat

lemma oLE_eq_true_iff (a b : Option ℚ) :
    oLE a b = true ↔ ∃ x y, a = some x ∧ b = some y ∧ x ≤ y := by
  cases a <;> cases b <;> simp [oLE]

lemma oGE_eq_true_iff (a b : Option ℚ) :
    oGE a b = true ↔ ∃ x y, a = some x ∧ b = some y ∧ y ≤ x := by
  cases a <;> cases b <;> simp [oGE]

/-- Case analysis for a single signal evaluation: every call to
`try_take_signal` is a no-op, an open (debit of the trade amount, position
created at the last close price, history untouched), or a close (credit of
`amount + profit`, position cleared, exactly one trade appended). -/
lemma tts_cases (cfg : Config) (now : ℕ) (df : List Snapshot) (s : BotState) :
    try_take_signal cfg now df s = s ∨
    (s.open_position = none ∧ ∃ la, df.getLast? = some la ∧ ∃ d,
      try_take_signal cfg now df s =
        { balance := s.balance - cfg.TRADE_AMOUNT
          open_position := some
            { entry_time := now, entry_price := la.close,
              direction := d, amount := cfg.TRADE_AMOUNT }
          trade_history := s.trade_history }) ∨
    (∃ entry, s.open_position = some entry ∧ ∃ la, df.getLast? = some la ∧
      try_take_signal cfg now df s =
        { balance := s.balance + entry.amount +
            profit_amount_of (pnl_pips entry.direction entry.entry_price la.close)
              entry.amount
          open_position := none
          trade_history := s.trade_history ++
            [{ entry_time := entry.entry_time
               close_time := now
               entry_price := entry.entry_price
               close_price := la.close
               direction := entry.direction
               amount := entry.amount
               profit_amount := roundTo 6
                 (profit_amount_of
                   (pnl_pips entry.direction entry.entry_price la.close) entry.amount)
               pnl_pips := roundTo 3
                 (pnl_pips entry.direction entry.entry_price la.close) }] }) := by
  unfold try_take_signal
  split
  · exact Or.inl rfl
  · rename_i la hlast
    split
    · rename_i rsi ma_s ma_l hr hs hl
      split
      · rename_i hpos
        dsimp only
        split
        · exact Or.inr (Or.inl ⟨hpos, la, hlast, Dir.call, rfl⟩)
        · split
          · exact Or.inr (Or.inl ⟨hpos, la, hlast, Dir.put, rfl⟩)
          · exact Or.inl rfl
      · rename_i entry hpos
        dsimp only
        split
        · exact Or.inr (Or.inr ⟨entry, hpos, la, hlast, rfl⟩)
        · exact Or.inl rfl
    · exact Or.inl rfl

lemma tts_flat_eq (cfg : Config) (now : ℕ) (front : List Snapshot)
    (pr la : Snapshot) (s : BotState) (rsi ma_s ma_l : ℚ)
    (hflat : s.open_position = none)
    (hr : la.rsi = some rsi) (hs : la.ma_short = some ma_s)
    (hl : la.ma_long = some ma_l) :
    try_take_signal cfg now (front ++ [pr, la]) s =
      if decide (rsi < 30) && oLE pr.ma_short pr.ma_long && decide (ma_l < ma_s) then
        { s with
          open_position := some
            { entry_time := now, entry_price := la.close,
              direction := Dir.call, amount := cfg.TRADE_AMOUNT }
          balance := s.balance - cfg.TRADE_AMOUNT }
      else if decide (70 < rsi) && oGE pr.ma_short pr.ma_long && decide (ma_s < ma_l) then
        { s with
          open_position := some
            { entry_time := now, entry_price := la.close,
              direction := Dir.put, amount := cfg.TRADE_AMOUNT }
          balance := s.balance - cfg.TRADE_AMOUNT }
      else s := by
  simp only [try_take_signal, getLast?_concat_two, dropLast_concat_two,
    List.getLast?_concat, hr, hs, hl, hflat, Option.some_bind, Option.isSome_some,
    Bool.true_and, Bool.and_true]

lemma tts_open_eq (cfg : Config) (now : ℕ) (front : List Snapshot)
    (pr la : Snapshot) (s : BotState) (entry : Position) (rsi ma_s ma_l : ℚ)
    (hpos : s.open_position = some entry)
    (hr : la.rsi = some rsi) (hs : la.ma_short = some ma_s)
    (hl : la.ma_long = some ma_l) :
    try_take_signal cfg now (front ++ [pr, la]) s =
      if decide ((5 : ℚ) ≤ pnl_pips entry.direction entry.entry_price la.close) ||
         decide (pnl_pips entry.direction entry.entry_price la.close ≤ (-10 : ℚ)) ||
         ((decide (entry.direction = Dir.call) && oGE pr.ma_short pr.ma_long &&
             decide (ma_s < ma_l)) ||
          (decide (entry.direction = Dir.put) && oLE pr.ma_short pr.ma_long &&
             decide (ma_l < ma_s))) then
        { balance := s.balance + entry.amount +
            profit_amount_of (pnl_pips entry.direction entry.entry_price la.close)
              entry.amount
          open_position := none
          trade_history := s.trade_history ++
            [{ entry_time := entry.entry_time
               close_time := now
               entry_price := entry.entry_price
               close_price := la.close
               direction := entry.direction
               amount := entry.amount
               profit_amount := roundTo 6
                 (profit_amount_of
                   (pnl_pips entry.direction entry.entry_price la.close) entry.amount)
               pnl_pips := roundTo 3
                 (pnl_pips entry.direction entry.entry_price la.close) }] }
      else s := by
  simp only [try_take_signal, getLast?_concat_two, dropLast_concat_two,
    List.getLast?_concat, hr, hs, hl, hpos, Option.some_bind, Option.isSome_some,
    Bool.true_and, Bool.and_true]

lemma tts_single_flat_eq (cfg : Config) (now : ℕ) (la : Snapshot) (s : BotState)
    (hflat : s.open_position = none) :
    try_take_signal cfg now [la] s = s := by
  unfold try_take_signal
  cases hr : la.rsi with
  | none => simp [hr]
  | some rsi =>
    cases hs : la.ma_short with
    | none => simp [hr, hs]
    | some ma_s =>
      cases hl : la.ma_long with
      | none => simp [hr, hs, hl]
      | some ma_l => simp [hr, hs, hl, hflat, oLE, oGE]

lemma tts_single_open_eq (cfg : Config) (now : ℕ) (la : Snapshot) (s : BotState)
    (entry : Position) (rsi ma_s ma_l : ℚ)
    (hpos : s.open_position = some entry)
    (hr : la.rsi = some rsi) (hs : la.ma_short = some ma_s)
    (hl : la.ma_long = some ma_l) :
    try_take_signal cfg now [la] s =
      if decide ((5 : ℚ) ≤ pnl_pips entry.direction entry.entry_price la.close) ||
         decide (pnl_pips entry.direction entry.entry_price la.close ≤ (-10 : ℚ)) then
        { balance := s.balance + entry.amount +
            profit_amount_of (pnl_pips entry.direction entry.entry_price la.close)
              entry.amount
          open_position := none
          trade_history := s.trade_history ++
            [{ entry_time := entry.entry_time
               close_time := now
               entry_price := entry.entry_price
               close_price := la.close
               direction := entry.direction
               amount := entry.amount
               profit_amount := roundTo 6
                 (profit_amount_of
                   (pnl_pips entry.direction entry.entry_price la.close) entry.amount)
               pnl_pips := roundTo 3
                 (pnl_pips entry.direction entry.entry_price la.close) }] }
      else s := by
  simp only [try_take_signal, List.getLast?_singleton, List.dropLast_single,
    List.getLast?_nil, hr, hs, hl, hpos, Option.none_bind, Option.isSome_none,
    Bool.false_and, Bool.and_false, Bool.or_false, Bool.false_or]

lemma tts_ledgerMeasure (cfg : Config) (now : ℕ) (df : List Snapshot)
    (s : BotState) :
    ledgerMeasure cfg (try_take_signal cfg now df s) = ledgerMeasure cfg s := by
  rcases tts_cases cfg now df s with h | ⟨hflat, la, hla, d, h⟩ |
    ⟨entry, hpos, la, hla, h⟩
  · rw [h]
  · rw [h]
    simp only [ledgerMeasure, hflat, Option.isSome_some, Option.isSome_none,
      if_true, if_false, Bool.false_eq_true]
    ring
  · rw [h]
    simp only [ledgerMeasure, hpos, Option.isSome_some, Option.isSome_none,
      if_true, if_false, Bool.false_eq_true, List.map_append, List.map_cons,
      List.map_nil, List.sum_append, List.length_append, List.length_cons,
      List.length_nil, List.sum_cons, List.sum_nil, tradeCredit]
    push_cast
    ring

lemma simStep_ledgerMeasure (cfg : Config) (s : SimState) (r : ℚ) :
    ledgerMeasure cfg (simStep cfg s r).bot = ledgerMeasure cfg s.bot := by
  unfold simStep
  dsimp only
  split
  · rfl
  · exact tts_ledgerMeasure cfg (s.tick + 1) _ s.bot

lemma runSim_ledgerMeasure (cfg : Config) (rs : List ℚ) :
    ledgerMeasure cfg (runSim cfg rs).bot = cfg.START_BALANCE := by
  have hfold : ∀ (l : List ℚ) (st : SimState),
      ledgerMeasure cfg (l.foldl (simStep cfg) st).bot = ledgerMeasure cfg st.bot := by
    intro l
    induction l with
    | nil => intro st; rfl
    | cons a t ih =>
      intro st
      rw [List.foldl_cons, ih, simStep_ledgerMeasure]
  rw [runSim, hfold]
  simp [ledgerMeasure, initState, SimState.bot]

lemma range_map_getLast? {α : Type} (f : ℕ → α) (n : ℕ) (hn : 1 ≤ n) :
    ((List.range n).map f).getLast? = some (f (n - 1)) := by
  obtain ⟨m, rfl⟩ : ∃ m, n = m + 1 := ⟨n - 1, by omega⟩
  rw [List.range_succ, List.map_append, List.map_singleton, List.getLast?_concat]
  simp

lemma foldl_wilder_nonneg (w : ℕ) (hw : 1 ≤ w) :
    ∀ (xs : List ℚ) (acc : ℚ), 0 ≤ acc → (∀ x ∈ xs, 0 ≤ x) →
      0 ≤ xs.foldl (fun acc y => (((w : ℚ) - 1) * acc + y) / (w : ℚ)) acc := by
  intro xs
  induction xs with
  | nil =>
    intro acc hacc _
    simpa using hacc
  | cons a t ih =>
    intro acc hacc hall
    rw [List.foldl_cons]
    apply ih
    · apply div_nonneg _ (by positivity)
      have hw1 : (1 : ℚ) ≤ (w : ℚ) := by exact_mod_cast hw
      have ha := hall a (List.mem_cons_self a t)
      nlinarith
    · intro x hx
      exact hall x (List.mem_cons_of_mem a hx)

lemma wilderAvg_nonneg (w : ℕ) (hw : 1 ≤ w) (xs : List ℚ)
    (hxs : ∀ x ∈ xs, 0 ≤ x) : 0 ≤ wilderAvg w xs := by
  cases xs with
  | nil => simp [wilderAvg]
  | cons a t =>
    rw [wilderAvg]
    exact foldl_wilder_nonneg w hw t a (hxs a (List.mem_cons_self a t))
      (fun x hx => hxs x (List.mem_cons_of_mem a hx))

lemma gains_nonneg (ps : List ℚ) : ∀ x ∈ gains ps, 0 ≤ x := by
  intro x hx
  rw [gains, List.mem_map] at hx
  obtain ⟨d, _, rfl⟩ := hx
  exact le_max_right d 0

lemma losses_nonneg (ps : List ℚ) : ∀ x ∈ losses ps, 0 ≤ x := by
  intro x hx
  rw [losses, List.mem_map] at hx
  obtain ⟨d, _, rfl⟩ := hx
  exact le_max_right (-d) 0

lemma simStep_price_series (cfg : Config) (s : SimState) (r : ℚ) :
    (simStep cfg s r).price_series =
      if 500 < (s.price_series ++ [generate_next_price s.price_series r]).length
      then (s.price_series ++ [generate_next_price s.price_series r]).tail
      else s.price_series ++ [generate_next_price s.price_series r] := by
  unfold simStep
  dsimp only
  split <;> rfl

/-! ### Claim theorems -/

theorem C1_flat_open_rules (cfg : Config) (now : ℕ) (front : List Snapshot)
    (pr la : Snapshot) (s : BotState) (rsi ma_s ma_l : ℚ)
    (hflat : s.open_position = none)
    (hr : la.rsi = some rsi) (hs : la.ma_short = some ma_s)
    (hl : la.ma_long = some ma_l) :
    ((∃ p, (try_take_signal cfg now (front ++ [pr, la]) s).open_position = some p ∧
        p.direction = Dir.call) ↔
      rsi < 30 ∧ (∃ x y, pr.ma_short = some x ∧ pr.ma_long = some y ∧ x ≤ y) ∧
        ma_l < ma_s) ∧
    ((∃ p, (try_take_signal cfg now (front ++ [pr, la]) s).open_position = some p ∧
        p.direction = Dir.put) ↔
      70 < rsi ∧ (∃ x y, pr.ma_short = some x ∧ pr.ma_long = some y ∧ y ≤ x) ∧
        ma_s < ma_l) ∧
    (∀ p, (try_take_signal cfg now (front ++ [pr, la]) s).open_position = some p →
      p.entry_time = now ∧ p.entry_price = la.close ∧ p.amount = cfg.TRADE_AMOUNT) := by
  rw [tts_flat_eq cfg now front pr la s rsi ma_s ma_l hflat hr hs hl]
  by_cases hb : (decide (rsi < 30) && oLE pr.ma_short pr.ma_long &&
      decide (ma_l < ma_s)) = true
  · rw [Bool.and_eq_true, Bool.and_eq_true] at hb
    obtain ⟨⟨hb1, hb2⟩, hb3⟩ := hb
    rw [decide_eq_true_eq] at hb1 hb3
    rw [oLE_eq_true_iff] at hb2
    simp only [if_pos (show (decide (rsi < 30) && oLE pr.ma_short pr.ma_long &&
      decide (ma_l < ma_s)) = true by
        rw [Bool.and_eq_true, Bool.and_eq_true, decide_eq_true_eq, decide_eq_true_eq,
          oLE_eq_true_iff]
        exact ⟨⟨hb1, hb2⟩, hb3⟩)]
    refine ⟨?_, ?_, ?_⟩
    · simp only [Option.some.injEq]
      constructor
      · intro _
        exact ⟨hb1, hb2, hb3⟩
      · intro _
        exact ⟨_, rfl, rfl⟩
    · simp only [Option.some.injEq]
      constructor
      · rintro ⟨p, hp, hdir⟩
        rw [← hp] at hdir
        exact absurd hdir (by simp)
      · rintro ⟨h70, _, hsl⟩
        exact absurd hb3 (by exact fun h => absurd hsl (lt_asymm h))
    · rintro p hp
      rw [Option.some.injEq] at hp
      rw [← hp]
      exact ⟨rfl, rfl, rfl⟩
  · rw [if_neg (by simpa using hb)]
    have hbprop : ¬(rsi < 30 ∧ (∃ x y, pr.ma_short = some x ∧ pr.ma_long = some y ∧
        x ≤ y) ∧ ma_l < ma_s) := by
      intro ⟨h1, h2, h3⟩
      apply hb
      rw [Bool.and_eq_true, Bool.and_eq_true, decide_eq_true_eq, decide_eq_true_eq,
        oLE_eq_true_iff]
      exact ⟨⟨h1, h2⟩, h3⟩
    by_cases hsell : (decide (70 < rsi) && oGE pr.ma_short pr.ma_long &&
        decide (ma_s < ma_l)) = true
    · rw [if_pos hsell]
      rw [Bool.and_eq_true, Bool.and_eq_true] at hsell
      obtain ⟨⟨hs1, hs2⟩, hs3⟩ := hsell
      rw [decide_eq_true_eq] at hs1 hs3
      rw [oGE_eq_true_iff] at hs2
      refine ⟨?_, ?_, ?_⟩
      · simp only [Option.some.injEq]
        constructor
        · rintro ⟨p, hp, hdir⟩
          rw [← hp] at hdir
          exact absurd hdir (by simp)
        · intro hrhs
          exact absurd hrhs hbprop
      · simp only [Option.some.injEq]
        constructor
        · intro _
          exact ⟨hs1, hs2, hs3⟩
        · intro _
          exact ⟨_, rfl, rfl⟩
      · rintro p hp
        rw [Option.some.injEq] at hp
        rw [← hp]
        exact ⟨rfl, rfl, rfl⟩
    · rw [if_neg (by simpa using hsell)]
      have hsprop : ¬(70 < rsi ∧ (∃ x y, pr.ma_short = some x ∧ pr.ma_long = some y ∧
          y ≤ x) ∧ ma_s < ma_l) := by
        intro ⟨h1, h2, h3⟩
        apply hsell
        rw [Bool.and_eq_true, Bool.and_eq_true, decide_eq_true_eq, decide_eq_true_eq,
          oGE_eq_true_iff]
        exact ⟨⟨h1, h2⟩, h3⟩
      refine ⟨?_, ?_, ?_⟩
      · simp only [hflat]
        constructor
        · rintro ⟨p, hp, _⟩
          exact absurd hp (by simp)
        · intro hrhs
          exact absurd hrhs hbprop
      · simp only [hflat]
        constructor
        · rintro ⟨p, hp, _⟩
          exact absurd hp (by simp)
        · intro hrhs
          exact absurd hrhs hsprop
      · rintro p hp
        rw [hflat] at hp
        exact absurd hp (by simp)

/-- Witness for C1 at a concrete actionable tick: `rsi = 10 < 30` with an
upward cross opens a long position. -/
theorem C1_witness :
    ∃ p, (try_take_signal ⟨2, 1, 2, 10, 1⟩ 3
        [⟨1, none, some 1, some 2⟩, ⟨3/2, some 10, some 3, some 2⟩]
        ⟨100, none, []⟩).open_position = some p ∧ p.direction = Dir.call := by
  have h := C1_flat_open_rules ⟨2, 1, 2, 10, 1⟩ 3 []
    ⟨1, none, some 1, some 2⟩ ⟨3/2, some 10, some 3, some 2⟩
    ⟨100, none, []⟩ 10 3 2 rfl rfl rfl rfl
  exact h.1.mpr ⟨by norm_num, ⟨1, 2, rfl, rfl, by norm_num⟩, by norm_num⟩

/-- C2: with an open position, on an actionable tick the position is closed iff
`pnlPips ≥ 5` or `pnlPips ≤ -10` or a reverse MA crossover occurs, where
`pnlPips` is the signed price difference times 10000; on close the balance is
credited `stake + (pnlPips / 10) * (stake / 100)`, exactly one trade is
appended and the state returns to FLAT; otherwise the state is unchanged. -/
theorem C2_close_rules (cfg : Config) (now : ℕ) (front : List Snapshot)
    (pr la : Snapshot) (s : BotState) (entry : Position) (rsi ma_s ma_l pnl : ℚ)
    (hpos : s.open_position = some entry)
    (hr : la.rsi = some rsi) (hs : la.ma_short = some ma_s)
    (hl : la.ma_long = some ma_l)
    (hpnl : pnl = if entry.direction = Dir.call
        then (la.close - entry.entry_price) * 10000
        else (entry.entry_price - la.close) * 10000) :
    ((try_take_signal cfg now (front ++ [pr, la]) s).open_position = none ↔
      (5 ≤ pnl ∨ pnl ≤ -10 ∨
        (entry.direction = Dir.call ∧
          (∃ x y, pr.ma_short = some x ∧ pr.ma_long = some y ∧ y ≤ x) ∧ ma_s < ma_l) ∨
        (entry.direction = Dir.put ∧
          (∃ x y, pr.ma_short = some x ∧ pr.ma_long = some y ∧ x ≤ y) ∧ ma_l < ma_s))) ∧
    ((5 ≤ pnl ∨ pnl ≤ -10 ∨
        (entry.direction = Dir.call ∧
          (∃ x y, pr.ma_short = some x ∧ pr.ma_long = some y ∧ y ≤ x) ∧ ma_s < ma_l) ∨
        (entry.direction = Dir.put ∧
          (∃ x y, pr.ma_short = some x ∧ pr.ma_long = some y ∧ x ≤ y) ∧ ma_l < ma_s)) →
      (try_take_signal cfg now (front ++ [pr, la]) s).balance =
        s.balance + entry.amount + pnl / 10 * (entry.amount / 100) ∧
      (∃ t, (try_take_signal cfg now (front ++ [pr, la]) s).trade_history =
        s.trade_history ++ [t]) ∧
      (try_take_signal cfg now (front ++ [pr, la]) s).open_position = none) ∧
    (¬(5 ≤ pnl ∨ pnl ≤ -10 ∨
        (entry.direction = Dir.call ∧
          (∃ x y, pr.ma_short = some x ∧ pr.ma_long = some y ∧ y ≤ x) ∧ ma_s < ma_l) ∨
        (entry.direction = Dir.put ∧
          (∃ x y, pr.ma_short = some x ∧ pr.ma_long = some y ∧ x ≤ y) ∧ ma_l < ma_s)) →
      try_take_signal cfg now (front ++ [pr, la]) s = s) := by
  have hP : pnl = pnl_pips entry.direction entry.entry_price la.close := by
    cases hd : entry.direction <;> simp [pnl_pips, hpnl, hd]
  rw [tts_open_eq cfg now front pr la s entry rsi ma_s ma_l hpos hr hs hl]
  have hiff : (decide ((5 : ℚ) ≤ pnl_pips entry.direction entry.entry_price la.close) ||
      decide (pnl_pips entry.direction entry.entry_price la.close ≤ (-10 : ℚ)) ||
      ((decide (entry.direction = Dir.call) && oGE pr.ma_short pr.ma_long &&
          decide (ma_s < ma_l)) ||
       (decide (entry.direction = Dir.put) && oLE pr.ma_short pr.ma_long &&
          decide (ma_l < ma_s)))) = true ↔
      (5 ≤ pnl ∨ pnl ≤ -10 ∨
        (entry.direction = Dir.call ∧
          (∃ x y, pr.ma_short = some x ∧ pr.ma_long = some y ∧ y ≤ x) ∧ ma_s < ma_l) ∨
        (entry.direction = Dir.put ∧
          (∃ x y, pr.ma_short = some x ∧ pr.ma_long = some y ∧ x ≤ y) ∧ ma_l < ma_s)) := by
    rw [← hP]
    cases hd : entry.direction <;>
      simp [hd, Bool.or_eq_true, Bool.and_eq_true, decide_eq_true_eq,
        oGE_eq_true_iff, oLE_eq_true_iff] <;>
      tauto
  by_cases hc : (5 ≤ pnl ∨ pnl ≤ -10 ∨
      (entry.direction = Dir.call ∧
        (∃ x y, pr.ma_short = some x ∧ pr.ma_long = some y ∧ y ≤ x) ∧ ma_s < ma_l) ∨
      (entry.direction = Dir.put ∧
        (∃ x y, pr.ma_short = some x ∧ pr.ma_long = some y ∧ x ≤ y) ∧ ma_l < ma_s))
  · rw [if_pos (hiff.mpr hc)]
    refine ⟨by simpa using hc, fun _ => ⟨?_, ⟨_, rfl⟩, rfl⟩, fun hn => absurd hc hn⟩
    rw [hP]
    simp [profit_amount_of]
  · rw [if_neg (fun h => hc (hiff.mp h))]
    refine ⟨?_, fun h => absurd h hc, fun _ => rfl⟩
    rw [hpos]
    exact iff_of_false (by simp) hc

/-- Witness for C2: a long opened at 1.10000 with the price at 1.10060
(+6 pips ≥ 5) closes, crediting `10 + (6/10)*(10/100)`. -/
theorem C2_witness :
    (try_take_signal ⟨2, 1, 2, 10, 1000⟩ 2
        [⟨1, none, none, none⟩, ⟨1.1006, some 50, some 1, some 2⟩]
        ⟨990, some ⟨1, 1.1, Dir.call, 10⟩, []⟩).open_position = none ∧
    (try_take_signal ⟨2, 1, 2, 10, 1000⟩ 2
        [⟨1, none, none, none⟩, ⟨1.1006, some 50, some 1, some 2⟩]
        ⟨990, some ⟨1, 1.1, Dir.call, 10⟩, []⟩).balance =
      990 + 10 + 6 / 10 * (10 / 100) := by
  have h := C2_close_rules ⟨2, 1, 2, 10, 1000⟩ 2 [] ⟨1, none, none, none⟩
    ⟨1.1006, some 50, some 1, some 2⟩ ⟨990, some ⟨1, 1.1, Dir.call, 10⟩, []⟩
    ⟨1, 1.1, Dir.call, 10⟩ 50 1 2 6 rfl rfl rfl rfl (by norm_num)
  obtain ⟨hbal, _, hflatres⟩ := h.2.1 (Or.inl (by norm_num))
  exact ⟨hflatres, hbal⟩

/-- C10: on any single tick at most one ledger action occurs: from FLAT no
trade is ever appended (an open never closes in the same tick), and with an
open position the tick either leaves position and history untouched or clears
the position while appending exactly one trade (a close never reopens). -/
theorem C10_one_action_per_tick (cfg : Config) (now : ℕ) (df : List Snapshot)
    (s : BotState) :
    (s.open_position = none →
      (try_take_signal cfg now df s).trade_history = s.trade_history) ∧
    (∀ entry, s.open_position = some entry →
      ((try_take_signal cfg now df s).open_position = s.open_position ∧
        (try_take_signal cfg now df s).trade_history = s.trade_history) ∨
      ((try_take_signal cfg now df s).open_position = none ∧
        ∃ t, (try_take_signal cfg now df s).trade_history =
          s.trade_history ++ [t])) := by
  rcases tts_cases cfg now df s with h | ⟨hflat, la, hla, d, h⟩ |
    ⟨entry, hpos, la, hla, h⟩
  · exact ⟨fun _ => by rw [h], fun e he => Or.inl ⟨by rw [h], by rw [h]⟩⟩
  · refine ⟨fun _ => by rw [h], fun e he => ?_⟩
    rw [hflat] at he
    exact absurd he (by simp)
  · refine ⟨fun hn => ?_, fun e he => Or.inr ⟨by rw [h], ⟨_, by rw [h]⟩⟩⟩
    rw [hpos] at hn
    exact absurd hn (by simp)

/-- Witness for C10 at two concrete states: a FLAT tick appends no trade, and
a tick with an open position either holds or closes with one appended trade. -/
theorem C10_witness :
    (try_take_signal ⟨2, 1, 2, 10, 1⟩ 1 [] ⟨5, none, []⟩).trade_history = [] ∧
    (((try_take_signal ⟨2, 1, 2, 10, 1⟩ 1 []
        ⟨5, some ⟨0, 1, Dir.call, 10⟩, []⟩).open_position =
          some ⟨0, 1, Dir.call, 10⟩ ∧
      (try_take_signal ⟨2, 1, 2, 10, 1⟩ 1 []
        ⟨5, some ⟨0, 1, Dir.call, 10⟩, []⟩).trade_history = []) ∨
     ((try_take_signal ⟨2, 1, 2, 10, 1⟩ 1 []
        ⟨5, some ⟨0, 1, Dir.call, 10⟩, []⟩).open_position = none ∧
      ∃ t, (try_take_signal ⟨2, 1, 2, 10, 1⟩ 1 []
        ⟨5, some ⟨0, 1, Dir.call, 10⟩, []⟩).trade_history = [] ++ [t])) := by
  refine ⟨(C10_one_action_per_tick ⟨2, 1, 2, 10, 1⟩ 1 [] ⟨5, none, []⟩).1 rfl, ?_⟩
  exact (C10_one_action_per_tick ⟨2, 1, 2, 10, 1⟩ 1 []
    ⟨5, some ⟨0, 1, Dir.call, 10⟩, []⟩).2 ⟨0, 1, Dir.call, 10⟩ rfl

/-- C3: every tick is a balance no-op, an open debiting exactly the stake, or
a close crediting exactly `stake + profitAmount`; over any run the final
balance is the start balance minus one stake per open (closed trades plus a
currently open position) plus the recorded credits; and no margin check stops
the balance from going negative (a run from a positive start reaches a
negative balance). -/
theorem C3_balance_accounting :
    (∀ (cfg : Config) (now : ℕ) (df : List Snapshot) (s : BotState),
      try_take_signal cfg now df s = s ∨
      (s.open_position = none ∧
        (try_take_signal cfg now df s).balance = s.balance - cfg.TRADE_AMOUNT ∧
        (try_take_signal cfg now df s).trade_history = s.trade_history ∧
        ∃ p, (try_take_signal cfg now df s).open_position = some p ∧
          p.amount = cfg.TRADE_AMOUNT) ∨
      (∃ entry la, s.open_position = some entry ∧ df.getLast? = some la ∧
        (try_take_signal cfg now df s).balance = s.balance + entry.amount +
          pnl_pips entry.direction entry.entry_price la.close / 10 *
            (entry.amount / 100) ∧
        (try_take_signal cfg now df s).open_position = none ∧
        ∃ t, (try_take_signal cfg now df s).trade_history =
          s.trade_history ++ [t])) ∧
    (∀ (cfg : Config) (rs : List ℚ),
      (runSim cfg rs).balance = cfg.START_BALANCE -
        (((runSim cfg rs).trade_history.length : ℚ) +
          (if (runSim cfg rs).open_position.isSome then 1 else 0)) *
            cfg.TRADE_AMOUNT +
        ((runSim cfg rs).trade_history.map tradeCredit).sum) ∧
    (∃ (cfg : Config) (rs : List ℚ), 0 < cfg.START_BALANCE ∧
      (runSim cfg rs).balance < 0) := by
  refine ⟨?_, ?_, ?_⟩
  · intro cfg now df s
    rcases tts_cases cfg now df s with h | ⟨hflat, la, hla, d, h⟩ |
      ⟨entry, hpos, la, hla, h⟩
    · exact Or.inl h
    · exact Or.inr (Or.inl ⟨hflat, by rw [h], by rw [h], _, by rw [h], rfl⟩)
    · refine Or.inr (Or.inr ⟨entry, la, hpos, hla, ?_, by rw [h], _, by rw [h]⟩)
      rw [h]
      show s.balance + entry.amount + profit_amount_of _ _ = _
      rw [profit_amount_of]
  · intro cfg rs
    have h := runSim_ledgerMeasure cfg rs
    unfold ledgerMeasure at h
    simp only [SimState.bot] at h
    linarith
  · exact ⟨⟨2, 1, 2, 10, 1⟩, [1/2, 3/16, 9/16], by norm_num,
      by with_unfolding_all decide⟩

/-- C4 counterexample: with windows (rsi 2, short 1, long 2) and generator
draws 1/2, 3/16, 9/16 (prices 1.1, 1.09945, 1.09956), ticks 1-2 produce no
indicator snapshot at all and the penultimate dataframe row at tick 3 has a
`NaN` rsi, so tick 3 is the very first actionable tick and has no actionable
predecessor snapshot — yet tick 3 opens a position, contradicting the claim
that the first actionable tick can never trigger an open. -/
theorem C4_counterexample :
    (runSim ⟨2, 1, 2, 10, 1⟩ [1/2, 3/16]).open_position = none ∧
    compute_indicators ⟨2, 1, 2, 10, 1⟩
      (runSim ⟨2, 1, 2, 10, 1⟩ [1/2, 3/16]).price_series = none ∧
    (compute_indicators ⟨2, 1, 2, 10, 1⟩
      (runSim ⟨2, 1, 2, 10, 1⟩ [1/2, 3/16, 9/16]).price_series).isSome = true ∧
    ((compute_indicators ⟨2, 1, 2, 10, 1⟩
        (runSim ⟨2, 1, 2, 10, 1⟩ [1/2, 3/16, 9/16]).price_series).getD
          []).dropLast.getLast?.isSome = true ∧
    (((compute_indicators ⟨2, 1, 2, 10, 1⟩
        (runSim ⟨2, 1, 2, 10, 1⟩ [1/2, 3/16, 9/16]).price_series).getD
          []).dropLast.getLast?.bind Snapshot.rsi) = none ∧
    (runSim ⟨2, 1, 2, 10, 1⟩ [1/2, 3/16, 9/16]).open_position.isSome = true := by
  with_unfolding_all decide

/-- C4 (amended): signal evaluation reads the last two rows of the dataframe
recomputed from the price history, not the previous tick's engine output: a
dataframe with fewer than two rows triggers no open from FLAT and no
crossover close (with an open position a close then happens iff a pnl
threshold is hit); but the penultimate row's moving averages are available as
soon as the length threshold is met, so the very first actionable tick can
already trigger an open. -/
theorem C4_amended_two_rows (cfg : Config) (now : ℕ) (la : Snapshot)
    (s : BotState) (entry : Position) (rsi ma_s ma_l : ℚ)
    (hr : la.rsi = some rsi) (hs : la.ma_short = some ma_s)
    (hl : la.ma_long = some ma_l) :
    (s.open_position = none → try_take_signal cfg now [la] s = s) ∧
    (s.open_position = some entry →
      ((try_take_signal cfg now [la] s).open_position = none ↔
        (5 ≤ pnl_pips entry.direction entry.entry_price la.close ∨
         pnl_pips entry.direction entry.entry_price la.close ≤ -10))) ∧
    (∃ (cfg2 : Config) (rs : List ℚ),
      compute_indicators cfg2 (runSim cfg2 rs.dropLast).price_series = none ∧
      (compute_indicators cfg2 (runSim cfg2 rs).price_series).isSome = true ∧
      (runSim cfg2 rs.dropLast).open_position = none ∧
      (runSim cfg2 rs).open_position.isSome = true) := by
  refine ⟨fun hflat => tts_single_flat_eq cfg now la s hflat, fun hpos => ?_, ?_⟩
  · rw [tts_single_open_eq cfg now la s entry rsi ma_s ma_l hpos hr hs hl]
    by_cases hc : (5 : ℚ) ≤ pnl_pips entry.direction entry.entry_price la.close ∨
        pnl_pips entry.direction entry.entry_price la.close ≤ (-10 : ℚ)
    · rw [if_pos (by simpa [Bool.or_eq_true, decide_eq_true_eq] using hc)]
      simpa using hc
    · rw [if_neg (by simpa [Bool.or_eq_true, decide_eq_true_eq] using hc)]
      rw [hpos]
      exact iff_of_false (by simp) hc
  · exact ⟨⟨2, 1, 2, 10, 1⟩, [1/2, 3/16, 9/16], by with_unfolding_all decide,
      by with_unfolding_all decide, by with_unfolding_all decide,
      by with_unfolding_all decide⟩

/-- Witness for the amended C4: a one-row dataframe leaves a FLAT state
unchanged, and with an open position at zero pnl it does not close. -/
theorem C4_witness :
    try_take_signal ⟨2, 1, 2, 10, 1⟩ 1 [⟨1, some 10, some 3, some 2⟩]
      ⟨0, none, []⟩ = ⟨0, none, []⟩ ∧
    ¬((try_take_signal ⟨2, 1, 2, 10, 1⟩ 1 [⟨1, some 10, some 3, some 2⟩]
        ⟨0, some ⟨0, 1, Dir.call, 10⟩, []⟩).open_position = none) := by
  constructor
  · exact (C4_amended_two_rows ⟨2, 1, 2, 10, 1⟩ 1 ⟨1, some 10, some 3, some 2⟩
      ⟨0, none, []⟩ ⟨0, 1, Dir.call, 10⟩ 10 3 2 rfl rfl rfl).1 rfl
  · intro hn
    have h := (C4_amended_two_rows ⟨2, 1, 2, 10, 1⟩ 1 ⟨1, some 10, some 3, some 2⟩
      ⟨0, some ⟨0, 1, Dir.call, 10⟩, []⟩ ⟨0, 1, Dir.call, 10⟩ 10 3 2
      rfl rfl rfl).2.1 rfl
    have hthis := h.mp hn
    norm_num [pnl_pips] at hthis

/-- C5: the indicator engine returns absent exactly below the history-length
threshold `max(rsiWindow, maLongWindow) + 1`; at or above it, it returns a
dataframe whose last row carries the latest close together with present
(non-`NaN`) `rsi`, `ma_short` and `ma_long` values (windows assumed positive
with `MA_SHORT ≤ MA_LONG`, as in the defaults 14/5/20). -/
theorem C5_indicator_threshold (cfg : Config) (hrw : 1 ≤ cfg.RSI_WINDOW)
    (hms : 1 ≤ cfg.MA_SHORT) (hml : cfg.MA_SHORT ≤ cfg.MA_LONG) :
    (∀ ps : List ℚ, ps.length < max cfg.RSI_WINDOW cfg.MA_LONG + 1 →
      compute_indicators cfg ps = none) ∧
    (∀ ps : List ℚ, max cfg.RSI_WINDOW cfg.MA_LONG + 1 ≤ ps.length →
      ∃ df la, compute_indicators cfg ps = some df ∧ df.getLast? = some la ∧
        la.close = ps.getD (ps.length - 1) 0 ∧
        la.rsi.isSome = true ∧ la.ma_short.isSome = true ∧
        la.ma_long.isSome = true) := by
  constructor
  · intro ps h
    rw [compute_indicators, if_pos h]
  · intro ps h
    have h1 : cfg.RSI_WINDOW ≤ max cfg.RSI_WINDOW cfg.MA_LONG := le_max_left _ _
    have h2 : cfg.MA_LONG ≤ max cfg.RSI_WINDOW cfg.MA_LONG := le_max_right _ _
    have htake : ps.length - 1 + 1 = ps.length := by omega
    refine ⟨_, _, by rw [compute_indicators, if_neg (by omega)],
      range_map_getLast? (rowAt cfg ps) ps.length (by omega), rfl, ?_, ?_, ?_⟩
    · show (rsi_at cfg.RSI_WINDOW (ps.take (ps.length - 1 + 1))).isSome = true
      rw [htake, List.take_length, rsi_at, if_pos ⟨hrw, by omega⟩]
      rfl
    · show (sma_at cfg.MA_SHORT (ps.take (ps.length - 1 + 1))).isSome = true
      rw [htake, List.take_length, sma_at, if_pos ⟨hms, by omega⟩]
      rfl
    · show (sma_at cfg.MA_LONG (ps.take (ps.length - 1 + 1))).isSome = true
      rw [htake, List.take_length, sma_at, if_pos ⟨by omega, by omega⟩]
      rfl

/-- Witness for C5 with the default windows 14/5/20: 20 prices give no
snapshot, 21 give a fully populated last row. -/
theorem C5_witness :
    compute_indicators ⟨14, 5, 20, 10, 1000⟩ (List.replicate 20 (1 : ℚ)) = none ∧
    (∃ df la, compute_indicators ⟨14, 5, 20, 10, 1000⟩
        (List.replicate 21 (1 : ℚ)) = some df ∧
      df.getLast? = some la ∧
      la.close = (List.replicate 21 (1 : ℚ)).getD
        ((List.replicate 21 (1 : ℚ)).length - 1) 0 ∧
      la.rsi.isSome = true ∧ la.ma_short.isSome = true ∧
      la.ma_long.isSome = true) := by
  constructor
  · exact (C5_indicator_threshold ⟨14, 5, 20, 10, 1000⟩ (by decide) (by decide)
      (by decide)).1 (List.replicate 20 1) (by decide)
  · exact (C5_indicator_threshold ⟨14, 5, 20, 10, 1000⟩ (by decide) (by decide)
      (by decide)).2 (List.replicate 21 1) (by decide)

/-- C6: a snapshot with any of `rsi`, `ma_short`, `ma_long` unavailable makes
the tick a no-op: the state (balance, open position, trade history) is
returned exactly unchanged, with no exception path. -/
theorem C6_nan_skip (cfg : Config) (now : ℕ) (df : List Snapshot) (la : Snapshot)
    (s : BotState) (hla : df.getLast? = some la)
    (hnan : la.rsi = none ∨ la.ma_short = none ∨ la.ma_long = none) :
    try_take_signal cfg now df s = s := by
  unfold try_take_signal
  rw [hla]
  rcases hr : la.rsi with _ | r <;> rcases hs2 : la.ma_short with _ | m1 <;>
    rcases hl2 : la.ma_long with _ | m2 <;> simp_all

/-- Witness for C6: a fully-`NaN` one-row dataframe leaves the state alone. -/
theorem C6_witness :
    try_take_signal ⟨14, 5, 20, 10, 1000⟩ 1 [⟨1, none, none, none⟩]
      ⟨5, none, []⟩ = ⟨5, none, []⟩ :=
  C6_nan_skip ⟨14, 5, 20, 10, 1000⟩ 1 [⟨1, none, none, none⟩]
    ⟨1, none, none, none⟩ ⟨5, none, []⟩ rfl (Or.inl rfl)

/-- C7: whenever the RSI is defined it lies in `[0, 100]`, and when the
smoothed loss average is zero it is the clamped value `100`, not an undefined
division by zero. -/
theorem C7_rsi_bounds (w : ℕ) (ps : List ℚ) (r : ℚ) (hw : 1 ≤ w)
    (h : rsi_at w ps = some r) :
    (0 ≤ r ∧ r ≤ 100) ∧ (wilderAvg w (losses ps) = 0 → r = 100) := by
  rw [rsi_at] at h
  split at h
  · dsimp only at h
    rw [Option.some.injEq] at h
    have hg : 0 ≤ wilderAvg w (gains ps) := wilderAvg_nonneg w hw _ (gains_nonneg ps)
    have hlo : 0 ≤ wilderAvg w (losses ps) :=
      wilderAvg_nonneg w hw _ (losses_nonneg ps)
    by_cases hz : wilderAvg w (losses ps) = 0
    · rw [if_pos hz] at h
      exact ⟨by rw [← h]; norm_num, fun _ => h.symm⟩
    · rw [if_neg hz] at h
      have hrdiv : 0 ≤ wilderAvg w (gains ps) / wilderAvg w (losses ps) :=
        div_nonneg hg hlo
      have hub : 100 / (1 + wilderAvg w (gains ps) / wilderAvg w (losses ps)) ≤
          100 := div_le_self (by norm_num) (by linarith)
      have hlb : 0 < 100 / (1 + wilderAvg w (gains ps) / wilderAvg w (losses ps)) :=
        by positivity
      exact ⟨⟨by linarith [h.symm ▸ (by linarith : (0:ℚ) ≤ 100 - 100 /
        (1 + wilderAvg w (gains ps) / wilderAvg w (losses ps)))],
        by rw [← h]; linarith⟩, fun hz2 => absurd hz2 hz⟩
  · exact absurd h (by simp)

/-- Witness for C7 on a flat three-price history with zero losses:
`rsi = 100`, inside `[0, 100]`. -/
theorem C7_witness :
    ((0 : ℚ) ≤ 100 ∧ (100 : ℚ) ≤ 100) ∧
    (wilderAvg 2 (losses [1, 1, 1]) = 0 → (100 : ℚ) = 100) :=
  C7_rsi_bounds 2 [1, 1, 1] 100 (by norm_num) (by with_unfolding_all decide)

/-- C8: the price history is append-only and bounded to 500 points: each tick
appends the newly generated price as the last element, keeps the length at
most 500, and on overflow evicts exactly the oldest element while preserving
the order of the rest. -/
theorem C8_bounded_history (cfg : Config) (s : SimState) (r : ℚ)
    (hlen : s.price_series.length ≤ 500) :
    (simStep cfg s r).price_series.length ≤ 500 ∧
    (simStep cfg s r).price_series.getLast? =
      some (generate_next_price s.price_series r) ∧
    (s.price_series.length < 500 →
      (simStep cfg s r).price_series =
        s.price_series ++ [generate_next_price s.price_series r]) ∧
    (s.price_series.length = 500 →
      (simStep cfg s r).price_series =
        s.price_series.tail ++ [generate_next_price s.price_series r]) := by
  rw [simStep_price_series]
  rcases lt_or_eq_of_le hlen with hcase | hcase
  · rw [if_neg (by simp; omega)]
    refine ⟨by simp; omega, List.getLast?_concat _, fun _ => rfl, fun he => ?_⟩
    omega
  · have hne : s.price_series ≠ [] := by
      intro hnil
      rw [hnil] at hcase
      simp at hcase
    rw [if_pos (by simp; omega)]
    rw [List.tail_append_singleton_of_ne_nil hne]
    refine ⟨by simp; omega, List.getLast?_concat _, fun hlt => ?_, fun _ => rfl⟩
    omega

/-- Witness for C8 at both an under-full and an exactly-full history. -/
theorem C8_witness :
    (simStep ⟨1000, 1, 2, 10, 0⟩ (initState ⟨1000, 1, 2, 10, 0⟩) (1/2)).price_series =
      [] ++ [generate_next_price [] (1/2)] ∧
    (simStep ⟨1000, 1, 2, 10, 0⟩ ⟨0, none, [], List.replicate 500 1, 0⟩
        (1/2)).price_series =
      (List.replicate 500 (1 : ℚ)).tail ++
        [generate_next_price (List.replicate 500 (1 : ℚ)) (1/2)] := by
  constructor
  · exact (C8_bounded_history ⟨1000, 1, 2, 10, 0⟩ (initState ⟨1000, 1, 2, 10, 0⟩)
      (1/2) (by decide)).2.2.1 (by decide)
  · exact (C8_bounded_history ⟨1000, 1, 2, 10, 0⟩
      ⟨0, none, [], List.replicate 500 1, 0⟩ (1/2) (by decide)).2.2.2 (by decide)

/-- C9: the generator returns `base + uniform(-0.005, 0.005)` with
`base = 1.1` on an empty history and `last * (1 + uniform(-0.0008, 0.0008))`
otherwise, with the second bound strictly smaller than the first, and the
result rounded to 5 decimal places. -/
theorem C9_price_generator (ps : List ℚ) (r : ℚ) (h0 : 0 ≤ r) (h1 : r ≤ 1) :
    (0.0008 : ℚ) < 0.005 ∧
    (ps = [] → ∃ u, |u| ≤ 0.005 ∧
      generate_next_price ps r = roundTo 5 (1.1 + u)) ∧
    (ps ≠ [] → ∃ u, |u| ≤ 0.0008 ∧
      generate_next_price ps r = roundTo 5 (ps.getLast?.getD 0 * (1 + u))) ∧
    (∃ k : ℤ, generate_next_price ps r = (k : ℚ) / 10 ^ 5) := by
  refine ⟨by norm_num, fun hnil => ?_, fun hne => ?_, ?_⟩
  · refine ⟨uniform (-0.005) 0.005 r, ?_, ?_⟩
    · rw [abs_le, uniform]
      constructor <;> nlinarith
    · rw [hnil, generate_next_price]
      simp
  · refine ⟨uniform (-0.0008) 0.0008 r, ?_, ?_⟩
    · rw [abs_le, uniform]
      constructor <;> nlinarith
    · rw [generate_next_price]
      simp [List.isEmpty_iff, hne]
  · rw [generate_next_price, roundTo]
    exact ⟨_, rfl⟩

/-- Witness for C9 at the draw `r = 1/2` on an empty and a one-point history. -/
theorem C9_witness :
    ((0.0008 : ℚ) < 0.005 ∧
      (∃ u, |u| ≤ (0.005 : ℚ) ∧
        generate_next_price [] (1/2) = roundTo 5 (1.1 + u))) ∧
    (∃ u, |u| ≤ (0.0008 : ℚ) ∧
      generate_next_price [1] (1/2) =
        roundTo 5 (([1] : List ℚ).getLast?.getD 0 * (1 + u))) := by
  have h1 := C9_price_generator [] (1/2) (by norm_num) (by norm_num)
  have h2 := C9_price_generator [1] (1/2) (by norm_num) (by norm_num)
  exact ⟨⟨h1.1, h1.2.1 rfl⟩, h2.2.2.1 (by simp)⟩
